import Mathlib

/-!
# Verification of the pyNEUNET detector-acquisition core

A shallow embedding of the frame codec, histogram accumulation, acquisition
bookkeeping and control-register protocol of the pyNEUNET repository
(`src/pyNEUNET/translaters.py`, `detectors.py`, `tcp_reader.py`,
`communications.py`), with theorems settling the specification's claims.

Modelling conventions:
* A byte is a `Nat` (values 0–255; range bounds appear as hypotheses where a
  property needs them).  Byte strings are `List Nat`.
* Python float arithmetic on decoded positions and times is modelled exactly
  over `ℚ`; `int(x)` for the non-negative values arising here is `Int.floor`
  followed by `Int.toNat`.
* Python dictionaries keyed by detector id are modelled as total functions
  guarded by the key-set membership test that the dictionary access performs;
  a `KeyError`/`IndexError` is an `Except.error` / `none`.
-/

namespace PyNEUNET

/-- `int.from_bytes(l, 'big')`: big-endian interpretation of a byte string. -/
def int_from_bytes_be (l : List ℕ) : ℕ :=
  l.foldl (fun acc b => 2 ^ 8 * acc + b) 0

/-- `n.to_bytes(len, 'big')`: big-endian byte string of fixed length. -/
def to_bytes_be (len n : ℕ) : List ℕ :=
  ((List.range len).reverse).map fun i => n / 2 ^ (8 * i) % 2 ^ 8

/-! ## translaters.py — frame codec -/

/-- Mode-12 detector number, from `translate_neutron_data`:
`psd_number = bin_data[4] % 2**3`. -/
def psd_12 (bin_data : List ℕ) : ℕ := bin_data.getD 4 0 % 2 ^ 3

/-- Mode-12 left pulse, from `translate_neutron_data`:
`pl = 2**4*bin_data[5] + bin_data[6] // 2**4`. -/
def pl_12 (bin_data : List ℕ) : ℕ :=
  2 ^ 4 * bin_data.getD 5 0 + bin_data.getD 6 0 / 2 ^ 4

/-- Mode-12 right pulse, from `translate_neutron_data`:
`pr = 2**8*(bin_data[6] % 2**4) + bin_data[7]`. -/
def pr_12 (bin_data : List ℕ) : ℕ :=
  2 ^ 8 * (bin_data.getD 6 0 % 2 ^ 4) + bin_data.getD 7 0

/-- Mode-14 detector number, from `translate_neutron_data`:
`psd_number = (bin_data[4] // 2**4) % 2**3`. -/
def psd_14 (bin_data : List ℕ) : ℕ := bin_data.getD 4 0 / 2 ^ 4 % 2 ^ 3

/-- Mode-14 left pulse, from `translate_neutron_data`:
`pl = 2**10*(bin_data[4] % 2**4) + 2**2*bin_data[5] + bin_data[6] // 2**6`. -/
def pl_14 (bin_data : List ℕ) : ℕ :=
  2 ^ 10 * (bin_data.getD 4 0 % 2 ^ 4) + 2 ^ 2 * bin_data.getD 5 0 +
    bin_data.getD 6 0 / 2 ^ 6

/-- Mode-14 right pulse, from `translate_neutron_data`:
`pr = 2**8*(bin_data[6] % 2**6) + bin_data[7]`. -/
def pr_14 (bin_data : List ℕ) : ℕ :=
  2 ^ 8 * (bin_data.getD 6 0 % 2 ^ 6) + bin_data.getD 7 0

/-- `position = pl/pulse_height` guarded by the `ZeroDivisionError` handler
that sets `position = None` (translaters.py lines 42–46). -/
def position_of (pl pr : ℕ) : Option ℚ :=
  if pl + pr = 0 then none else some ((pl : ℚ) / ((pl : ℚ) + (pr : ℚ)))

/-- `translate_neutron_data(bin_data, type)` (translaters.py lines 13–47).
`bin_data` is the full 8-byte frame (byte 0 is the tag; payload byte `i` is
`bin_data[i+1]`).  Returns `(psd_number, position)`; the guarded division
yields `none` exactly when `pl + pr == 0`.  A `type` other than 12 or 14
leaves `psd_number` unbound in Python (`UnboundLocalError`), modelled as
`none`. -/
def translate_neutron_data (bin_data : List ℕ) (type : ℕ := 14) :
    Option (ℕ × Option ℚ) :=
  if type = 12 then
    some (psd_12 bin_data, position_of (pl_12 bin_data) (pr_12 bin_data))
  else if type = 14 then
    some (psd_14 bin_data, position_of (pl_14 bin_data) (pr_14 bin_data))
  else none

/-- The bytes branch of `instrument_time(input)` (translaters.py lines 69–74,
`mode='seconds'`): `intSeconds = int.from_bytes(input[:4],'big');
intSubSeconds = input[4]; return intSeconds + intSubSeconds / 2**8`.
The `input[4]` access raises `IndexError` on inputs shorter than 5 bytes,
modelled as `none`.  The missing module `translators.py` imported by
`detectors.py` has the same bytes branch (an identical copy appears in
`tests/pulse_left_right_testing.py`, lines 102–107). -/
def instrument_time (input : List ℕ) : Option ℚ :=
  match input.get? 4 with
  | none => none
  | some sub => some ((int_from_bytes_be (input.take 4) : ℚ) + (sub : ℚ) / 2 ^ 8)

/-- The encoding branch of `instrument_time(None)` (translaters.py lines
64–68), abstracted over the seconds value it encodes (the source applies it
to `secondsSince2008` computed from the wall clock):
`int(s).to_bytes(4,'big') + int(s % 1 * 2**8).to_bytes(1,'big')`.
For the non-negative `s` arising there, Python's `int(...)` truncation and
`% 1` agree with `Int.floor` and the fractional part. -/
def instrument_time_encode (s : ℚ) : List ℕ :=
  to_bytes_be 4 (⌊s⌋).toNat ++ [(⌊(s - (⌊s⌋ : ℚ)) * 2 ^ 8⌋).toNat]

/-- Written from the specification's words, for comparison with
`instrument_time`: "seconds = big-endian 32-bit from payload[0..4);
subseconds = payload[4]/256; result = seconds + subseconds". -/
def decode_instrument_time_spec (p0 p1 p2 p3 p4 : ℕ) : ℚ :=
  ((2 ^ 24 * p0 + 2 ^ 16 * p1 + 2 ^ 8 * p2 + p3 : ℕ) : ℚ) + (p4 : ℚ) / 256

/-- Written from the specification's words, for comparison with `psd_14`:
"psd = (payload[3]>>4)&0x7" (payload byte 3 is frame byte 4). -/
def psd_14_spec (p3 : ℕ) : ℕ := (p3 >>> 4) &&& 0x7

/-- Written from the specification's words, for comparison with `pl_14`:
"pulse_left = ((payload[3]&0xF)<<10) | (payload[4]<<2) | (payload[5]>>6)". -/
def pl_14_spec (p3 p4 p5 : ℕ) : ℕ :=
  ((p3 &&& 0xF) <<< 10) ||| (p4 <<< 2) ||| (p5 >>> 6)

/-- Written from the specification's words, for comparison with `pr_14`:
"pulse_right = ((payload[5]&0x3F)<<8) | payload[6]". -/
def pr_14_spec (p5 p6 : ℕ) : ℕ := ((p5 &&& 0x3F) <<< 8) ||| p6

/-! ## Histogram bin indices -/

/-- The bin index of `detectors.py` `Linear3HePSD._count_neutron` (line 167):
`res = int(position * (self.__bins - 1))`.  `position ≥ 0`, so the `int`
truncation is `Int.floor`; `self.__bins - 1` is Python integer subtraction,
hence arithmetic over `ℚ` (not truncated `Nat` subtraction). -/
def detectors_res (bins : ℕ) (p : ℚ) : ℕ := (⌊p * ((bins : ℚ) - 1)⌋).toNat

/-- The bin index of `tcp_reader.py` `detector_reader.count_neutron` (line
86) with its fixed `BINS = 1024`:
`res = BINS-1 if position*BINS >= BINS else int(position*BINS)`. -/
def tcp_res (p : ℚ) : ℕ :=
  if (1024 : ℚ) ≤ p * 1024 then 1023 else (⌊p * 1024⌋).toNat

/-- Written from the specification's words, for comparison with the bin
indices above: "`bin_index = floor(position * bin_count)`, clamped to
`[0, bin_count-1]`". -/
def spec_bin_index (bin_count : ℕ) (p : ℚ) : ℕ :=
  min (⌊p * (bin_count : ℚ)⌋).toNat (bin_count - 1)

/-! ## detectors.py — `Linear3HePSD` acquisition state -/

/-- The tag bytes of `TCP_START_BYTES` (detectors.py lines 36–40 and the
identical `START_BYTES` of tcp_reader.py line 23). -/
def START_BYTES : List ℕ := [0x5F, 0x5B, 0x6C]

namespace Linear3HePSD

/-- The per-run mutable state of `Linear3HePSD.read` (detectors.py lines
231–237): the configured active detector set `psd_nums` and bin count, the
per-detector dictionaries `self.__counts` and `self.__histograms` (count
column only — column 0 holds the static physical positions), and
`current_time`.  The dictionaries have exactly the keys
`f"detector {i}" for i in psd_nums`; access to any other key raises
`KeyError`, modelled as `Except.error ()` at the access sites. -/
structure State where
  psd_nums : List ℕ
  bins : ℕ
  counts : ℕ → ℕ
  histograms : ℕ → ℕ → ℕ
  current_time : ℚ

/-- The state set up at the top of `read` (detectors.py lines 231–237): a
zero count and an all-zero histogram count column for each active detector,
`current_time = 0`. -/
def init (psd_nums : List ℕ) (bins : ℕ) : State :=
  { psd_nums := psd_nums
    bins := bins
    counts := fun _ => 0
    histograms := fun _ _ => 0
    current_time := 0 }

/-- `Linear3HePSD._count_neutron` (detectors.py lines 161–170): decode the
frame, skip silently when `position is None`, otherwise increment the
owning detector's count and histogram bin `res`.  The dictionary accesses
`self.__counts[f"detector {psd_number}"]` / `self.__histograms[...]` raise
`KeyError` when `psd_number` is not in `psd_nums` (the dictionaries were
initialised with exactly those keys); no state is mutated in that case. -/
def count_neutron (s : State) (bytes_data : List ℕ) : Except Unit State :=
  match translate_neutron_data bytes_data 14 with
  | some (psd_number, some position) =>
    let res := detectors_res s.bins position
    if psd_number ∈ s.psd_nums then
      Except.ok
        { s with
          counts := fun d => if d = psd_number then s.counts d + 1 else s.counts d
          histograms := fun d r =>
            if d = psd_number ∧ r = res then s.histograms d r + 1
            else s.histograms d r }
    else Except.error ()
  | _ => Except.ok s

/-- One iteration of the accumulating loop of `read` (detectors.py lines
254–259), applied to the steady-state 8-byte frame just read: a neutron
event is counted, an instrument-time frame updates `current_time` via
`translate_instrument_time(self.__bytes_data[1:])` (whose bytes branch is
`instrument_time`), any other tag is ignored. -/
def process_frame (s : State) (bytes_data : List ℕ) : Except Unit State :=
  if bytes_data.getD 0 0 = 0x5F then count_neutron s bytes_data
  else if bytes_data.getD 0 0 = 0x6C then
    match instrument_time (bytes_data.drop 1) with
    | some t => Except.ok { s with current_time := t }
    | none => Except.error ()
  else Except.ok s

/-- The accumulating loop of `read` over a list of already-framed 8-byte
reads, propagating any raised exception. -/
def accumulate (s : State) : List (List ℕ) → Except Unit State
  | [] => Except.ok s
  | b :: rest => do accumulate (← process_frame s b) rest

end Linear3HePSD

/-! ## collect_8bytes in offset (resynchronizing) mode -/

/-- `collect_8bytes(sock, offset=True)` (tcp_reader.py lines 60–72;
detectors.py lines 141–153 is byte-for-byte the same logic with
`translate_instrument_time` in place of `instrument_time`): consume single
bytes until one is in `START_BYTES`, complete the 8-byte frame, and — when
the located tag is the instrument-time tag — seed `start_time` with
`instrument_time(recv_byte)`, where `recv_byte` is the 1-byte buffer
holding only the tag.  Result: the assembled frame together with the
outcome of the seeding step (`ok none` = no seeding attempted, `ok (some v)`
= seeded with `v`, `error` = the seeding call raised).  A stream with no tag
byte blocks until the socket timeout, modelled as the outer `none`. -/
def collect_8bytes_offset (stream : List ℕ) :
    Option (List ℕ × Except Unit (Option ℚ)) :=
  match stream.dropWhile (fun x => decide (x ∉ START_BYTES)) with
  | [] => none
  | t :: rest =>
    some ((t :: rest).take 8,
      if t = 0x6C then
        match instrument_time [t] with
        | some v => Except.ok (some v)
        | none => Except.error ()
      else Except.ok none)

/-! ## tcp_reader.py — `detector_reader` accumulation state -/

namespace DetectorReader

/-- The mutable fields of `detector_reader.start` (tcp_reader.py lines
124–128) used by `count_neutron`: the two hardwired histograms (count row
`arr[0]`) and counters for detectors 0 and 7. -/
structure State where
  arr0 : ℕ → ℕ
  arr7 : ℕ → ℕ
  count0 : ℕ
  count7 : ℕ

/-- `detector_reader.count_neutron` (tcp_reader.py lines 80–92): decode,
skip silently when `position is None`, then update detector 0 or detector 7
and silently ignore every other detector number. -/
def count_neutron (s : State) (bytes_data : List ℕ) : State :=
  match translate_neutron_data bytes_data 14 with
  | some (psd_number, some position) =>
    let res := tcp_res position
    if psd_number = 0 then
      { s with arr0 := fun r => if r = res then s.arr0 r + 1 else s.arr0 r
               count0 := s.count0 + 1 }
    else if psd_number = 7 then
      { s with arr7 := fun r => if r = res then s.arr7 r + 1 else s.arr7 r
               count7 := s.count7 + 1 }
    else s
  | _ => s

end DetectorReader

/-! ## communications.py — control-register protocol -/

/-- The exception raised on a flagged response (communications.py lines
38–43): a `ConnectionRefusedError('Bus error! ...')` carrying the sent
request bytes and the raw response bytes. -/
structure BusError where
  request : List ℕ
  response : List ℕ
  deriving Repr, DecidableEq

/-- The request datagram built by `register_readwrite` (communications.py
lines 11–32): header `[0xff, mode, ID, length] + address.to_bytes(4,'big')`,
with `mode = 0xc0` and the given `length` for a read (`data is None`), and
`mode = 0x80`, `length = len(data)` and the payload appended for a write. -/
def request_bytes (ID length address : ℕ) (data : Option (List ℕ)) : List ℕ :=
  match data with
  | none => [0xFF, 0xC0, ID, length] ++ to_bytes_be 4 address
  | some d => [0xFF, 0x80, ID, d.length] ++ to_bytes_be 4 address ++ d

/-- The response handling of `register_readwrite` (communications.py lines
37–48), as a function of the datagram `recvData` the socket returned:
`flagByte = recvData[1] % 2**4`; if `flagByte % 2**1` the bus-error
exception is raised, else `recvData` is returned.  (A response shorter than
2 bytes would raise `IndexError`; theorems below assume the 8-byte response
header the protocol fixes, via a length hypothesis.) -/
def register_readwrite (ID length address : ℕ) (data : Option (List ℕ))
    (recvData : List ℕ) : Except BusError (List ℕ) :=
  let sendBytes := request_bytes ID length address data
  let flagByte := recvData.getD 1 0 % 2 ^ 4
  if flagByte % 2 ^ 1 = 0 then Except.ok recvData
  else Except.error ⟨sendBytes, recvData⟩

/-- The fixed sweep of `read_full_register` (communications.py line 59):
`zip([0x180,0x188,0x18b,0x190,0x198,0x1b0],[8,3,5,7,8,6])`. -/
def sweep_pairs : List (ℕ × ℕ) :=
  List.zip [0x180, 0x188, 0x18B, 0x190, 0x198, 0x1B0] [8, 3, 5, 7, 8, 6]

/-- The loop of `read_full_register` over the remaining sweep pairs.  `ids i`
is the random transaction id and `responses i` the datagram received for the
`i`-th request.  Returns the list of `(address, length)` pairs actually
issued (in order), and either the collected response payloads
(`recvData[8:]` each) or the bus error that aborted the sweep. -/
def read_full_register_go (ids : ℕ → ℕ) (responses : ℕ → List ℕ) :
    List (ℕ × ℕ) → ℕ → List (ℕ × ℕ) × Except BusError (List (List ℕ))
  | [], _ => ([], Except.ok [])
  | (address, length) :: rest, i =>
    match register_readwrite (ids i) length address none (responses i) with
    | Except.error e => ([(address, length)], Except.error e)
    | Except.ok recvData =>
      let next := read_full_register_go ids responses rest (i + 1)
      ((address, length) :: next.1, next.2.map (fun rs => recvData.drop 8 :: rs))

/-- `read_full_register` (communications.py lines 52–65): issue the fixed
sweep of read requests in order, aborting on a bus-error response. -/
def read_full_register (ids : ℕ → ℕ) (responses : ℕ → List ℕ) :
    List (ℕ × ℕ) × Except BusError (List (List ℕ)) :=
  read_full_register_go ids responses sweep_pairs 0

end PyNEUNET

section SanityChecks

open PyNEUNET

example : int_from_bytes_be [0, 0, 3, 232] = 1000 := by decide

example : to_bytes_be 4 1000 = [0, 0, 3, 232] := by decide

example : translate_neutron_data [95, 0, 0, 0, 0, 1, 0, 4] 14 =
    some (0, some (1 / 2)) := by
  norm_num [translate_neutron_data, psd_14, pl_14, pr_14, position_of]

example : translate_neutron_data [95, 0, 0, 0, 1, 0, 0, 0] 14 =
    some (0, some 1) := by
  norm_num [translate_neutron_data, psd_14, pl_14, pr_14, position_of]

example : instrument_time [0, 0, 3, 232, 128, 0, 0] = some (1000 + 1 / 2) := by
  norm_num [instrument_time, int_from_bytes_be, List.get?]

example : instrument_time [108] = none := rfl

example : detectors_res 350 (1 / 2) = 174 := by
  norm_num [detectors_res]
  rfl

example : spec_bin_index 350 (1 / 2) = 175 := by
  norm_num [spec_bin_index]
  rfl

example : tcp_res (1 / 2) = 512 := by
  norm_num [tcp_res]
  rfl

example : tcp_res 1 = 1023 := by
  norm_num [tcp_res]

example :
    Linear3HePSD.count_neutron (Linear3HePSD.init [0, 7] 350)
      [95, 0, 0, 0, 16, 0, 64, 1] = Except.error () := by
  norm_num [Linear3HePSD.count_neutron, Linear3HePSD.init,
    translate_neutron_data, psd_14, pl_14, pr_14, position_of]

example :
    collect_8bytes_offset [0, 108, 0, 0, 3, 232, 0, 0, 0] =
      some ([108, 0, 0, 3, 232, 0, 0, 0], Except.error ()) := by
  norm_num [collect_8bytes_offset, START_BYTES, instrument_time, List.dropWhile]

example :
    register_readwrite 1 1 0x18A none [0, 1] =
      Except.error ⟨[255, 192, 1, 1, 0, 0, 1, 138], [0, 1]⟩ := by
  norm_num [register_readwrite, request_bytes, to_bytes_be]
  decide

example :
    (read_full_register (fun _ => 0) (fun _ => [0, 0])).1 =
      [(0x180, 8), (0x188, 3), (0x18B, 5), (0x190, 7), (0x198, 8), (0x1B0, 6)] := by
  norm_num [read_full_register, read_full_register_go, sweep_pairs,
    register_readwrite, request_bytes]

end SanityChecks

/-! ## Shared lemmas -/

open PyNEUNET

namespace PyNEUNET

/-- Inverting a successful mode-14 decode: the detector number is `psd_14`,
the position is the pulse ratio, and the pulse sum is nonzero. -/
lemma translate_neutron_data_some {b : List ℕ} {psd : ℕ} {p : ℚ}
    (h : translate_neutron_data b 14 = some (psd, some p)) :
    psd = psd_14 b ∧ pl_14 b + pr_14 b ≠ 0 ∧
      p = (pl_14 b : ℚ) / ((pl_14 b : ℚ) + (pr_14 b : ℚ)) := by
  have h' : psd_14 b = psd ∧ position_of (pl_14 b) (pr_14 b) = some p := by
    rw [translate_neutron_data] at h
    norm_num at h
    exact h
  obtain ⟨hpsd, hpos⟩ := h'
  rw [position_of] at hpos
  by_cases hsum : pl_14 b + pr_14 b = 0
  · rw [if_pos hsum] at hpos
    exact absurd hpos (by simp)
  · rw [if_neg hsum] at hpos
    exact ⟨hpsd.symm, hsum, (Option.some_injective _ hpos).symm⟩

/-- The decoded mode-14 position lies in `[0, 1]`, reaching `1` exactly when
the right pulse vanishes. -/
lemma position_bounds {b : List ℕ} {psd : ℕ} {p : ℚ}
    (h : translate_neutron_data b 14 = some (psd, some p)) :
    0 ≤ p ∧ p ≤ 1 ∧ (p = 1 ↔ pr_14 b = 0) := by
  obtain ⟨-, hsum, hp⟩ := translate_neutron_data_some h
  have hL : (0 : ℚ) ≤ (pl_14 b : ℚ) := Nat.cast_nonneg _
  have hR : (0 : ℚ) ≤ (pr_14 b : ℚ) := Nat.cast_nonneg _
  have hden : (0 : ℚ) < (pl_14 b : ℚ) + (pr_14 b : ℚ) := by
    have : (0 : ℚ) < ((pl_14 b + pr_14 b : ℕ) : ℚ) := by
      exact_mod_cast Nat.pos_of_ne_zero hsum
    push_cast at this
    linarith
  subst hp
  refine ⟨div_nonneg hL hden.le, ?_, ?_⟩
  · rw [div_le_one hden]
    linarith
  · rw [div_eq_one_iff_eq hden.ne']
    constructor
    · intro he
      have : (pr_14 b : ℚ) = 0 := by linarith
      exact_mod_cast this
    · intro he
      rw [he]
      push_cast
      ring

/-- For a position in `[0, 1]`, the `detectors.py` bin index stays in range,
and position `1` lands in the last bin. -/
lemma detectors_res_le {bins : ℕ} {p : ℚ} (hb : 1 ≤ bins) (h0 : 0 ≤ p)
    (h1 : p ≤ 1) :
    detectors_res bins p ≤ bins - 1 ∧ (p = 1 → detectors_res bins p = bins - 1) := by
  have hcast : ((bins : ℚ) - 1) = ((bins - 1 : ℕ) : ℚ) := by
    push_cast [Nat.cast_sub hb]
    ring
  constructor
  · have hmul : p * ((bins : ℚ) - 1) ≤ ((bins - 1 : ℕ) : ℚ) := by
      rw [hcast]
      exact mul_le_of_le_one_left (Nat.cast_nonneg _) h1
    have hfl : ⌊p * ((bins : ℚ) - 1)⌋ ≤ (bins - 1 : ℕ) := by
      calc ⌊p * ((bins : ℚ) - 1)⌋ ≤ ⌊((bins - 1 : ℕ) : ℚ)⌋ := Int.floor_le_floor hmul
        _ = (bins - 1 : ℕ) := Int.floor_natCast _
    rw [detectors_res]
    exact Int.toNat_le.mpr (by exact_mod_cast hfl)
  · intro hp
    subst hp
    rw [detectors_res, hcast, one_mul, Int.floor_natCast, Int.toNat_natCast]

/-- The `tcp_reader.py` bin index realizes the specification's clamped
formula on `[0, 1]`. -/
lemma tcp_res_eq_spec {p : ℚ} (h0 : 0 ≤ p) (h1 : p ≤ 1) :
    tcp_res p = spec_bin_index 1024 p := by
  rw [tcp_res, spec_bin_index]
  by_cases hc : (1024 : ℚ) ≤ p * 1024
  · have hp1 : p = 1 := le_antisymm h1 (by linarith)
    subst hp1
    rw [if_pos hc]
    norm_num
  · rw [if_neg hc]
    have hlt : p * 1024 < 1024 := lt_of_not_le hc
    have hfl : ⌊p * 1024⌋ < (1024 : ℤ) := Int.floor_lt.mpr (by exact_mod_cast hlt)
    have hle : (⌊p * 1024⌋).toNat ≤ 1023 := Int.toNat_le.mpr (by omega)
    have hmin : min (⌊p * ((1024 : ℕ) : ℚ)⌋).toNat (1024 - 1) =
        (⌊p * 1024⌋).toNat := by
      have hc1024 : ((1024 : ℕ) : ℚ) = (1024 : ℚ) := by norm_num
      rw [hc1024]
      omega
    rw [hmin]

end PyNEUNET

/-! ## Claim theorems -/

/-- **C3**: For every 7-byte InstrumentTime payload, decoding returns seconds
since the fixed 2008 epoch computed as the big-endian 32-bit integer from
payload bytes 0..3 plus payload byte 4 divided by 256 (bytes 5 and 6 are
ignored by this decoder). -/
theorem C3_instrument_time_decode (p0 p1 p2 p3 p4 p5 p6 : ℕ) :
    instrument_time [p0, p1, p2, p3, p4, p5, p6] =
      some (decode_instrument_time_spec p0 p1 p2 p3 p4) := by
  rw [instrument_time]
  norm_num [int_from_bytes_be, decode_instrument_time_spec]
  ring

/-- **C9**: Encoding seconds = 1 700 000 000 with subsecond fraction 0.5 into
the 5-byte wire format (4-byte big-endian seconds, then 1 byte of 1/256-second
units) and decoding those bytes recovers the original value to within
1/256 s (here: exactly). -/
theorem C9_time_roundtrip :
    ∃ t : ℚ,
      instrument_time (instrument_time_encode (1700000000 + 1 / 2)) = some t ∧
      |t - (1700000000 + 1 / 2)| ≤ 1 / 256 := by
  have hfl : ⌊(1700000000 + 1 / 2 : ℚ)⌋ = 1700000000 := by norm_num
  have henc : instrument_time_encode (1700000000 + 1 / 2) =
      [101, 83, 241, 0, 128] := by
    rw [instrument_time_encode, hfl]
    norm_num
    decide
  rw [henc]
  refine ⟨1700000000 + 1 / 2, ?_, by norm_num⟩
  rw [instrument_time]
  norm_num [int_from_bytes_be]

/-- **C6**: A control-channel response whose byte 1 has low-nibble bit 0 set
makes `register_readwrite` raise the bus error carrying the raw request and
response bytes, regardless of opcode (read/write), transaction id, address or
payload; a response with that bit clear is returned unchanged. -/
theorem C6_bus_error_flag (ID length address : ℕ) (data : Option (List ℕ))
    (recvData : List ℕ) (_hlen : 2 ≤ recvData.length) :
    (recvData.getD 1 0 % 2 = 1 →
      register_readwrite ID length address data recvData =
        Except.error ⟨request_bytes ID length address data, recvData⟩) ∧
    (recvData.getD 1 0 % 2 = 0 →
      register_readwrite ID length address data recvData =
        Except.ok recvData) := by
  have hmod : recvData.getD 1 0 % 2 ^ 4 % 2 ^ 1 = recvData.getD 1 0 % 2 := by
    rw [pow_one, Nat.mod_mod_of_dvd _ (by norm_num)]
  constructor
  · intro hbit
    rw [register_readwrite]
    simp only [hmod, hbit]
    norm_num
  · intro hbit
    rw [register_readwrite]
    simp only [hmod, hbit]
    norm_num

/-- Witness for C6 at a concrete flagged response: a read request to address
0x18A answered by a two-byte datagram with bit 0 of byte 1 set raises the
bus error carrying the request and response. -/
theorem C6_bus_error_flag_witness :
    2 ≤ ([0, 1] : List ℕ).length ∧
    register_readwrite 1 1 0x18A none [0, 1] =
      Except.error ⟨request_bytes 1 1 0x18A none, [0, 1]⟩ := by
  refine ⟨by norm_num, ?_⟩
  exact (C6_bus_error_flag 1 1 0x18A none [0, 1] (by norm_num)).1 (by norm_num)

/-- **C8**: `read_full_register` issues exactly six read requests, in the
fixed order (0x180,8), (0x188,3), (0x18b,5), (0x190,7), (0x198,8), (0x1b0,6),
for any transaction ids and any response contents that carry no bus-error
flag, and the sweep succeeds. -/
theorem C8_register_sweep (ids : ℕ → ℕ) (responses : ℕ → List ℕ)
    (h : ∀ i, i < 6 → (responses i).getD 1 0 % 2 = 0) :
    (read_full_register ids responses).1 =
      [(0x180, 8), (0x188, 3), (0x18B, 5), (0x190, 7), (0x198, 8), (0x1B0, 6)] ∧
    ∃ payloads, (read_full_register ids responses).2 = Except.ok payloads := by
  have hok : ∀ i, i < 6 → ∀ ln ad,
      register_readwrite (ids i) ln ad none (responses i) =
        Except.ok (responses i) := by
    intro i hi ln ad
    rw [register_readwrite]
    have hmod : (responses i).getD 1 0 % 2 ^ 4 % 2 ^ 1 =
        (responses i).getD 1 0 % 2 := by
      rw [pow_one, Nat.mod_mod_of_dvd _ (by norm_num)]
    simp only [hmod, h i hi]
    norm_num
  rw [read_full_register, sweep_pairs]
  norm_num [read_full_register_go, Except.map, hok 0 (by norm_num),
    hok 1 (by norm_num), hok 2 (by norm_num), hok 3 (by norm_num),
    hok 4 (by norm_num), hok 5 (by norm_num)]

/-- Witness for C8 at concrete unflagged responses. -/
theorem C8_register_sweep_witness :
    (∀ i, i < 6 → (((fun _ => [0, 0]) : ℕ → List ℕ) i).getD 1 0 % 2 = 0) ∧
    (read_full_register (fun _ => 0) (fun _ => [0, 0])).1 =
      [(0x180, 8), (0x188, 3), (0x18B, 5), (0x190, 7), (0x198, 8), (0x1B0, 6)] := by
  refine ⟨fun i _ => by norm_num, ?_⟩
  exact (C8_register_sweep (fun _ => 0) (fun _ => [0, 0])
    (fun i _ => by norm_num)).1

namespace PyNEUNET

/-- Reduction of `Linear3HePSD.count_neutron` on an accepted event whose
detector is in the active set. -/
lemma count_neutron_ok_of_mem {s : Linear3HePSD.State} {b : List ℕ}
    {psd : ℕ} {p : ℚ} (h : translate_neutron_data b 14 = some (psd, some p))
    (hmem : psd ∈ s.psd_nums) :
    Linear3HePSD.count_neutron s b = Except.ok
      { s with
        counts := fun d => if d = psd then s.counts d + 1 else s.counts d
        histograms := fun d r =>
          if d = psd ∧ r = detectors_res s.bins p then s.histograms d r + 1
          else s.histograms d r } := by
  rw [Linear3HePSD.count_neutron, h]
  simp [hmem]

/-- Reduction of `Linear3HePSD.count_neutron` on an accepted event whose
detector is outside the active set: the dictionary access raises `KeyError`. -/
lemma count_neutron_error_of_not_mem {s : Linear3HePSD.State} {b : List ℕ}
    {psd : ℕ} {p : ℚ} (h : translate_neutron_data b 14 = some (psd, some p))
    (hmem : psd ∉ s.psd_nums) :
    Linear3HePSD.count_neutron s b = Except.error () := by
  rw [Linear3HePSD.count_neutron, h]
  simp [hmem]

/-- Reduction of `Linear3HePSD.count_neutron` on a frame decoding to no
position (`pulse_left + pulse_right == 0`): the state is untouched. -/
lemma count_neutron_skip {s : Linear3HePSD.State} {b : List ℕ}
    (h : pl_14 b + pr_14 b = 0) :
    Linear3HePSD.count_neutron s b = Except.ok s := by
  rw [Linear3HePSD.count_neutron, translate_neutron_data]
  norm_num [position_of, h]

end PyNEUNET

/-- **C1** (counterexample): with the default `bins = 350` of detectors.py and
the accepted neutron frame `5f:00:00:00:00:01:00:04` (pulse_left = 4,
pulse_right = 4, position = 1/2), `Linear3HePSD._count_neutron` records the
event in bin `int(0.5 * 349) = 174`, not in the claimed clamped
`floor(0.5 * 350) = 175`. -/
theorem C1_counterexample :
    translate_neutron_data [95, 0, 0, 0, 0, 1, 0, 4] 14 = some (0, some (1 / 2)) ∧
    detectors_res 350 (1 / 2) = 174 ∧
    spec_bin_index 350 (1 / 2) = 175 ∧
    detectors_res 350 (1 / 2) ≠ spec_bin_index 350 (1 / 2) := by
  have h1 : detectors_res 350 (1 / 2) = 174 := by
    norm_num [detectors_res]
    rfl
  have h2 : spec_bin_index 350 (1 / 2) = 175 := by
    norm_num [spec_bin_index]
    rfl
  refine ⟨?_, h1, h2, ?_⟩
  · norm_num [translate_neutron_data, psd_14, pl_14, pr_14, position_of]
  · rw [h1, h2]
    norm_num

/-- **C1** (amended): for every accepted NeutronEvent with decoded position
`p` (which lies in `[0,1]`), the bin index `int(p * (bins-1))` used by
`detectors.py` `_count_neutron` lies in `[0, bins-1]` and `p = 1.0` maps to
`bins-1`, so no out-of-range index ever arises; the bin index used by
`tcp_reader.py` `count_neutron` equals the claimed clamped
`floor(p * bin_count)` formula (with its fixed `bin_count = 1024`); and
`_count_neutron` increments exactly the histogram cell at its index. -/
theorem C1_bin_index_amended (b : List ℕ) (psd : ℕ) (p : ℚ) (bins : ℕ)
    (hb : 1 ≤ bins)
    (h : translate_neutron_data b 14 = some (psd, some p)) :
    detectors_res bins p ≤ bins - 1 ∧
    (p = 1 → detectors_res bins p = bins - 1) ∧
    tcp_res p = spec_bin_index 1024 p ∧
    (∀ s : Linear3HePSD.State, psd ∈ s.psd_nums → s.bins = bins →
      ∃ s', Linear3HePSD.count_neutron s b = Except.ok s' ∧
        s'.histograms psd (detectors_res bins p) =
          s.histograms psd (detectors_res bins p) + 1 ∧
        ∀ d r, ¬(d = psd ∧ r = detectors_res bins p) →
          s'.histograms d r = s.histograms d r) := by
  obtain ⟨h0, h1, -⟩ := position_bounds h
  obtain ⟨hle, hone⟩ := detectors_res_le hb h0 h1
  refine ⟨hle, hone, tcp_res_eq_spec h0 h1, ?_⟩
  intro s hmem hbins
  subst hbins
  refine ⟨_, count_neutron_ok_of_mem h hmem, ?_, ?_⟩
  · simp
  · intro d r hdr
    simp only
    rw [if_neg hdr]

/-- Witness for C1 (amended) at the counterexample frame and the default
350-bin configuration. -/
theorem C1_bin_index_amended_witness :
    (1 ≤ 350 ∧
      translate_neutron_data [95, 0, 0, 0, 0, 1, 0, 4] 14 =
        some (0, some (1 / 2))) ∧
    detectors_res 350 (1 / 2) ≤ 349 ∧ tcp_res (1 / 2) = spec_bin_index 1024 (1 / 2) := by
  have hdec : translate_neutron_data [95, 0, 0, 0, 0, 1, 0, 4] 14 =
      some (0, some (1 / 2)) := by
    norm_num [translate_neutron_data, psd_14, pl_14, pr_14, position_of]
  have hmain := C1_bin_index_amended [95, 0, 0, 0, 0, 1, 0, 4] 0 (1 / 2) 350
    (by norm_num) hdec
  exact ⟨⟨by norm_num, hdec⟩, hmain.1, hmain.2.2.1⟩

/-- **C2** (counterexample): the mode-14 frame `5f:00:00:00:01:00:00:00`
decodes to pulse_left = 1024, pulse_right = 0, so pulse_left + pulse_right > 0
yet the decoded position is exactly 1, which does not lie in `[0, 1)`. -/
theorem C2_counterexample :
    pl_14 [95, 0, 0, 0, 1, 0, 0, 0] + pr_14 [95, 0, 0, 0, 1, 0, 0, 0] = 1024 ∧
    translate_neutron_data [95, 0, 0, 0, 1, 0, 0, 0] 14 = some (0, some 1) ∧
    ¬ ((1 : ℚ) < 1) := by
  refine ⟨by norm_num [pl_14, pr_14], ?_, by norm_num⟩
  norm_num [translate_neutron_data, psd_14, pl_14, pr_14, position_of]

/-- **C2** (amended): for every 8-byte frame with tag 0x5F decoded in mode 14
(payload byte `i` being frame byte `i+1`), the detector id is
`(payload[3]>>4)&0x7` and hence lies in `[0,7]`; the pulses are extracted by
the stated bit fields `pulse_left = ((payload[3]&0xF)<<10) | (payload[4]<<2) |
(payload[5]>>6)` and `pulse_right = ((payload[5]&0x3F)<<8) | payload[6]`; and
whenever `pulse_left + pulse_right > 0` the decoded position lies in `[0, 1]`,
reaching 1 exactly when `pulse_right = 0`. -/
theorem C2_mode14_fields (b1 b2 b3 b4 b5 b6 b7 : ℕ)
    (h5 : b5 < 256) (h6 : b6 < 256) (h7 : b7 < 256) :
    psd_14 [95, b1, b2, b3, b4, b5, b6, b7] = psd_14_spec b4 ∧
    psd_14 [95, b1, b2, b3, b4, b5, b6, b7] ≤ 7 ∧
    pl_14 [95, b1, b2, b3, b4, b5, b6, b7] = pl_14_spec b4 b5 b6 ∧
    pr_14 [95, b1, b2, b3, b4, b5, b6, b7] = pr_14_spec b6 b7 ∧
    (pl_14 [95, b1, b2, b3, b4, b5, b6, b7] +
        pr_14 [95, b1, b2, b3, b4, b5, b6, b7] ≠ 0 →
      ∃ p : ℚ,
        translate_neutron_data [95, b1, b2, b3, b4, b5, b6, b7] 14 =
          some (psd_14 [95, b1, b2, b3, b4, b5, b6, b7], some p) ∧
        0 ≤ p ∧ p ≤ 1 ∧
        (p = 1 ↔ pr_14 [95, b1, b2, b3, b4, b5, b6, b7] = 0)) := by
  refine ⟨?_, ?_, ?_, ?_, ?_⟩
  · show b4 / 2 ^ 4 % 2 ^ 3 = psd_14_spec b4
    rw [psd_14_spec, Nat.shiftRight_eq_div_pow,
      show (0x7 : ℕ) = 2 ^ 3 - 1 from rfl, Nat.and_pow_two_sub_one_eq_mod]
  · show b4 / 2 ^ 4 % 2 ^ 3 ≤ 7
    have := Nat.mod_lt (b4 / 2 ^ 4) (show 0 < 2 ^ 3 by norm_num)
    omega
  · show 2 ^ 10 * (b4 % 2 ^ 4) + 2 ^ 2 * b5 + b6 / 2 ^ 6 = pl_14_spec b4 b5 b6
    rw [pl_14_spec, show (0xF : ℕ) = 2 ^ 4 - 1 from rfl,
      Nat.and_pow_two_sub_one_eq_mod, Nat.shiftLeft_eq, Nat.shiftLeft_eq,
      Nat.shiftRight_eq_div_pow]
    rw [mul_comm (b4 % 2 ^ 4) (2 ^ 10), mul_comm b5 (2 ^ 2)]
    rw [← Nat.mul_add_lt_is_or (show 2 ^ 2 * b5 < 2 ^ 10 by omega) (b4 % 2 ^ 4)]
    rw [show 2 ^ 10 * (b4 % 2 ^ 4) + 2 ^ 2 * b5 =
      2 ^ 2 * (2 ^ 8 * (b4 % 2 ^ 4) + b5) by ring]
    rw [← Nat.mul_add_lt_is_or (show b6 / 2 ^ 6 < 2 ^ 2 by omega)
      (2 ^ 8 * (b4 % 2 ^ 4) + b5)]
  · show 2 ^ 8 * (b6 % 2 ^ 6) + b7 = pr_14_spec b6 b7
    rw [pr_14_spec, show (0x3F : ℕ) = 2 ^ 6 - 1 from rfl,
      Nat.and_pow_two_sub_one_eq_mod, Nat.shiftLeft_eq,
      mul_comm (b6 % 2 ^ 6) (2 ^ 8)]
    rw [← Nat.mul_add_lt_is_or (show b7 < 2 ^ 8 by omega) (b6 % 2 ^ 6)]
  · intro hsum
    have hdec : translate_neutron_data [95, b1, b2, b3, b4, b5, b6, b7] 14 =
        some (psd_14 [95, b1, b2, b3, b4, b5, b6, b7],
          some ((pl_14 [95, b1, b2, b3, b4, b5, b6, b7] : ℚ) /
            ((pl_14 [95, b1, b2, b3, b4, b5, b6, b7] : ℚ) +
              (pr_14 [95, b1, b2, b3, b4, b5, b6, b7] : ℚ)))) := by
      rw [translate_neutron_data]
      norm_num [position_of, hsum]
    obtain ⟨h0, h1, hiff⟩ := position_bounds hdec
    exact ⟨_, hdec, h0, h1, hiff⟩

/-- Witness for C2 at the frame `5f:00:00:00:10:00:40:01` (detector 1,
pulse_left = 1, pulse_right = 1). -/
theorem C2_mode14_fields_witness :
    ((0 : ℕ) < 256 ∧ (64 : ℕ) < 256 ∧ (1 : ℕ) < 256) ∧
    psd_14 [95, 0, 0, 0, 16, 0, 64, 1] = psd_14_spec 16 ∧
    psd_14 [95, 0, 0, 0, 16, 0, 64, 1] ≤ 7 := by
  have hmain := C2_mode14_fields 0 0 0 16 0 64 1
    (by norm_num) (by norm_num) (by norm_num)
  exact ⟨⟨by norm_num, by norm_num, by norm_num⟩, hmain.1, hmain.2.1⟩

/-- **C5** (counterexample): with active set {0, 7} (the default
`psd_nums = (0, 7)`) and the accepted neutron frame `5f:00:00:00:10:00:40:01`
owned by detector 1, `Linear3HePSD._count_neutron` raises `KeyError` (the
counts dictionary has no key "detector 1") instead of leaving the state
unchanged without error. -/
theorem C5_counterexample :
    translate_neutron_data [95, 0, 0, 0, 16, 0, 64, 1] 14 =
      some (1, some (1 / 2)) ∧
    (1 : ℕ) ∉ ([0, 7] : List ℕ) ∧
    Linear3HePSD.count_neutron (Linear3HePSD.init [0, 7] 350)
      [95, 0, 0, 0, 16, 0, 64, 1] = Except.error () := by
  have hdec : translate_neutron_data [95, 0, 0, 0, 16, 0, 64, 1] 14 =
      some (1, some (1 / 2)) := by
    norm_num [translate_neutron_data, psd_14, pl_14, pr_14, position_of]
  refine ⟨hdec, by decide, ?_⟩
  exact count_neutron_error_of_not_mem hdec (by decide)

/-- **C5** (amended): during accumulation a NeutronEvent frame updates the
histogram and total count only of its owning detector when that detector is
in the configured active set, leaving every other detector untouched; a
NeutronEvent whose detector is outside the active set raises `KeyError`
(Python mutates nothing before the raise), rather than being skipped
silently. -/
theorem C5_active_set (s : Linear3HePSD.State) (b : List ℕ) (psd : ℕ) (p : ℚ)
    (h : translate_neutron_data b 14 = some (psd, some p)) :
    (psd ∉ s.psd_nums → Linear3HePSD.count_neutron s b = Except.error ()) ∧
    (psd ∈ s.psd_nums → ∃ s',
      Linear3HePSD.count_neutron s b = Except.ok s' ∧
      s'.counts psd = s.counts psd + 1 ∧
      (∀ d, d ≠ psd → s'.counts d = s.counts d) ∧
      (∀ d r, d ≠ psd → s'.histograms d r = s.histograms d r) ∧
      s'.psd_nums = s.psd_nums ∧ s'.bins = s.bins ∧
      s'.current_time = s.current_time) := by
  constructor
  · intro hmem
    exact count_neutron_error_of_not_mem h hmem
  · intro hmem
    refine ⟨_, count_neutron_ok_of_mem h hmem, ?_, ?_, ?_, rfl, rfl, rfl⟩
    · simp
    · intro d hd
      simp [hd]
    · intro d r hd
      simp [hd]

/-- Witness for C5 at an accepted in-set event: detector 0 of the active set
{0, 7}, starting from the freshly initialised state. -/
theorem C5_active_set_witness :
    (translate_neutron_data [95, 0, 0, 0, 0, 1, 0, 4] 14 =
        some (0, some (1 / 2)) ∧ (0 : ℕ) ∈ ([0, 7] : List ℕ)) ∧
    ∃ s', Linear3HePSD.count_neutron (Linear3HePSD.init [0, 7] 350)
        [95, 0, 0, 0, 0, 1, 0, 4] = Except.ok s' ∧ s'.counts 0 = 1 := by
  have hdec : translate_neutron_data [95, 0, 0, 0, 0, 1, 0, 4] 14 =
      some (0, some (1 / 2)) := by
    norm_num [translate_neutron_data, psd_14, pl_14, pr_14, position_of]
  obtain ⟨s', hok, hc, -⟩ :=
    (C5_active_set (Linear3HePSD.init [0, 7] 350) _ 0 (1 / 2) hdec).2 (by decide)
  exact ⟨⟨hdec, by decide⟩, s', hok, hc.trans rfl⟩

/-- **C7**: a neutron frame whose decoded `pulse_left + pulse_right` is zero
decodes to "no position" (not an error); both acquisition loops skip it
silently — no count and no histogram bin changes, no exception propagates —
and accumulation just continues with the next frame. -/
theorem C7_zero_pulse_height (b : List ℕ) (s : Linear3HePSD.State)
    (t : DetectorReader.State) (rest : List (List ℕ))
    (h : pl_14 b + pr_14 b = 0) :
    translate_neutron_data b 14 = some (psd_14 b, none) ∧
    Linear3HePSD.count_neutron s b = Except.ok s ∧
    DetectorReader.count_neutron t b = t ∧
    (b.getD 0 0 = 0x5F →
      Linear3HePSD.accumulate s (b :: rest) = Linear3HePSD.accumulate s rest) := by
  have hdec : translate_neutron_data b 14 = some (psd_14 b, none) := by
    rw [translate_neutron_data]
    norm_num [position_of, h]
  refine ⟨hdec, count_neutron_skip h, ?_, ?_⟩
  · rw [DetectorReader.count_neutron, hdec]
  · intro htag
    have hpf : Linear3HePSD.process_frame s b = Except.ok s := by
      rw [Linear3HePSD.process_frame, htag]
      simp [count_neutron_skip h]
    simp only [Linear3HePSD.accumulate, hpf]
    rfl

/-- Witness for C7 at the all-zero-pulse frame `5f:00:00:00:00:00:00:00`. -/
theorem C7_zero_pulse_height_witness :
    (pl_14 [95, 0, 0, 0, 0, 0, 0, 0] + pr_14 [95, 0, 0, 0, 0, 0, 0, 0] = 0) ∧
    translate_neutron_data [95, 0, 0, 0, 0, 0, 0, 0] 14 =
      some (psd_14 [95, 0, 0, 0, 0, 0, 0, 0], none) ∧
    Linear3HePSD.count_neutron (Linear3HePSD.init [0, 7] 350)
      [95, 0, 0, 0, 0, 0, 0, 0] =
      Except.ok (Linear3HePSD.init [0, 7] 350) := by
  have hz : pl_14 [95, 0, 0, 0, 0, 0, 0, 0] + pr_14 [95, 0, 0, 0, 0, 0, 0, 0] = 0 := by
    norm_num [pl_14, pr_14]
  have hmain := C7_zero_pulse_height [95, 0, 0, 0, 0, 0, 0, 0]
    (Linear3HePSD.init [0, 7] 350) ⟨fun _ => 0, fun _ => 0, 0, 0⟩ [] hz
  exact ⟨hz, hmain.1, hmain.2.1⟩

/-- **C4** (code exhibit at the failing input): on the stream
`00 6c 00 00 03 e8 00 00 00` — a garbage byte followed by an InstrumentTime
frame whose payload encodes t = 1000.0 s — the resynchronizing read locates
the frame (whose payload decodes to 1000.0) but its seeding step raises
`IndexError`, because the source passes the 1-byte tag buffer `recv_byte` to
the time decoder instead of the assembled frame; `start_time` is never
seeded with the frame's value. -/
theorem C4_start_time_seeding_bug :
    collect_8bytes_offset [0, 108, 0, 0, 3, 232, 0, 0, 0] =
      some ([108, 0, 0, 3, 232, 0, 0, 0], Except.error ()) ∧
    instrument_time (List.drop 1 [108, 0, 0, 3, 232, 0, 0, 0]) = some 1000 := by
  constructor
  · norm_num [collect_8bytes_offset, START_BYTES, instrument_time,
      List.dropWhile]
  · norm_num [instrument_time, int_from_bytes_be]

namespace PyNEUNET

/-- `Linear3HePSD.count_neutron` preserves the active set, the bin count and
the count-equals-histogram-sum invariant. -/
lemma count_neutron_inv {s s' : Linear3HePSD.State} {b : List ℕ}
    (hb : 1 ≤ s.bins)
    (hinv : ∀ d ∈ s.psd_nums,
      s.counts d = ∑ r in Finset.range s.bins, s.histograms d r)
    (h : Linear3HePSD.count_neutron s b = Except.ok s') :
    s'.bins = s.bins ∧ s'.psd_nums = s.psd_nums ∧
    ∀ d ∈ s'.psd_nums,
      s'.counts d = ∑ r in Finset.range s'.bins, s'.histograms d r := by
  rw [Linear3HePSD.count_neutron] at h
  split at h
  next psd p heq =>
    by_cases hmem : psd ∈ s.psd_nums
    · rw [if_pos hmem] at h
      injection h with h'
      subst h'
      refine ⟨rfl, rfl, ?_⟩
      intro d hd
      obtain ⟨h0, h1, -⟩ := position_bounds heq
      have hres : detectors_res s.bins p < s.bins := by
        have := (detectors_res_le hb h0 h1).1
        omega
      by_cases hdp : d = psd
      · subst hdp
        show (if d = d then s.counts d + 1 else s.counts d) =
          ∑ r in Finset.range s.bins,
            (if d = d ∧ r = detectors_res s.bins p then s.histograms d r + 1
              else s.histograms d r)
        rw [if_pos rfl]
        have hcongr : ∀ r ∈ Finset.range s.bins,
            (if d = d ∧ r = detectors_res s.bins p then s.histograms d r + 1
              else s.histograms d r) =
            s.histograms d r + (if r = detectors_res s.bins p then 1 else 0) := by
          intro r hr
          by_cases hreq : r = detectors_res s.bins p
          · simp [hreq]
          · simp [hreq]
        rw [Finset.sum_congr rfl hcongr, Finset.sum_add_distrib,
          Finset.sum_ite_eq' (Finset.range s.bins) (detectors_res s.bins p)
            (fun _ => 1), if_pos (Finset.mem_range.mpr hres), hinv d hd]
      · show (if d = psd then s.counts d + 1 else s.counts d) =
          ∑ r in Finset.range s.bins,
            (if d = psd ∧ r = detectors_res s.bins p then s.histograms d r + 1
              else s.histograms d r)
        rw [if_neg hdp]
        have hcongr : ∀ r ∈ Finset.range s.bins,
            (if d = psd ∧ r = detectors_res s.bins p then s.histograms d r + 1
              else s.histograms d r) = s.histograms d r := by
          intro r hr
          simp [hdp]
        rw [Finset.sum_congr rfl hcongr]
        exact hinv d hd
    · rw [if_neg hmem] at h
      exact Except.noConfusion h
  next hne =>
    injection h with h'
    subst h'
    exact ⟨rfl, rfl, hinv⟩

/-- One loop iteration of the accumulating state machine preserves the
active set, the bin count and the count-equals-histogram-sum invariant. -/
lemma process_frame_inv {s s' : Linear3HePSD.State} {b : List ℕ}
    (hb : 1 ≤ s.bins)
    (hinv : ∀ d ∈ s.psd_nums,
      s.counts d = ∑ r in Finset.range s.bins, s.histograms d r)
    (h : Linear3HePSD.process_frame s b = Except.ok s') :
    s'.bins = s.bins ∧ s'.psd_nums = s.psd_nums ∧
    ∀ d ∈ s'.psd_nums,
      s'.counts d = ∑ r in Finset.range s'.bins, s'.histograms d r := by
  rw [Linear3HePSD.process_frame] at h
  split at h
  · exact count_neutron_inv hb hinv h
  · split at h
    · split at h
      · injection h with h'
        subst h'
        exact ⟨rfl, rfl, hinv⟩
      · exact Except.noConfusion h
    · injection h with h'
      subst h'
      exact ⟨rfl, rfl, hinv⟩

/-- The whole accumulating loop preserves the active set, the bin count and
the count-equals-histogram-sum invariant. -/
lemma accumulate_inv :
    ∀ (frames : List (List ℕ)) (s s' : Linear3HePSD.State), 1 ≤ s.bins →
    (∀ d ∈ s.psd_nums,
      s.counts d = ∑ r in Finset.range s.bins, s.histograms d r) →
    Linear3HePSD.accumulate s frames = Except.ok s' →
    s'.bins = s.bins ∧ s'.psd_nums = s.psd_nums ∧
    ∀ d ∈ s'.psd_nums,
      s'.counts d = ∑ r in Finset.range s'.bins, s'.histograms d r := by
  intro frames
  induction frames with
  | nil =>
    intro s s' hb hinv h
    rw [Linear3HePSD.accumulate] at h
    injection h with h'
    subst h'
    exact ⟨rfl, rfl, hinv⟩
  | cons b rest ih =>
    intro s s' hb hinv h
    rw [Linear3HePSD.accumulate] at h
    cases hpf : Linear3HePSD.process_frame s b with
    | error e =>
      rw [hpf] at h
      exact Except.noConfusion h
    | ok s1 =>
      rw [hpf] at h
      obtain ⟨hbins1, hpsd1, hinv1⟩ := process_frame_inv hb hinv hpf
      have h1 : Linear3HePSD.accumulate s1 rest = Except.ok s' := h
      obtain ⟨hbins2, hpsd2, hinv2⟩ := ih s1 s' (hbins1 ▸ hb) hinv1 h1
      exact ⟨hbins2.trans hbins1, hpsd2.trans hpsd1, hinv2⟩

end PyNEUNET

/-- **C10**: throughout a `Linear3HePSD` run, for every detector in the
active set the running total count equals the sum of the count column of its
histogram: both start at zero in the freshly initialised state, the
invariant holds after accumulating any frame list that completes without an
exception, and each accepted neutron event increments exactly one histogram
bin and the total count of the same detector, each by one, leaving all other
detectors untouched. -/
theorem C10_count_histogram_invariant (psd_nums : List ℕ) (bins : ℕ)
    (frames : List (List ℕ)) (hb : 1 ≤ bins) :
    (∀ d ∈ psd_nums, (Linear3HePSD.init psd_nums bins).counts d =
      ∑ r in Finset.range bins,
        (Linear3HePSD.init psd_nums bins).histograms d r) ∧
    (∀ s', Linear3HePSD.accumulate (Linear3HePSD.init psd_nums bins) frames =
        Except.ok s' →
      ∀ d ∈ s'.psd_nums, s'.counts d =
        ∑ r in Finset.range s'.bins, s'.histograms d r) ∧
    (∀ (s : Linear3HePSD.State) (b : List ℕ) (psd : ℕ) (p : ℚ),
      translate_neutron_data b 14 = some (psd, some p) → psd ∈ s.psd_nums →
      ∃ s', Linear3HePSD.count_neutron s b = Except.ok s' ∧
        s'.counts psd = s.counts psd + 1 ∧
        s'.histograms psd (detectors_res s.bins p) =
          s.histograms psd (detectors_res s.bins p) + 1 ∧
        (∀ d, d ≠ psd → s'.counts d = s.counts d) ∧
        (∀ d r, ¬(d = psd ∧ r = detectors_res s.bins p) →
          s'.histograms d r = s.histograms d r)) := by
  refine ⟨?_, ?_, ?_⟩
  · intro d hd
    simp [Linear3HePSD.init]
  · intro s' h
    exact (accumulate_inv frames (Linear3HePSD.init psd_nums bins) s' hb
      (by intro d hd; simp [Linear3HePSD.init]) h).2.2
  · intro s b psd p hdec hmem
    refine ⟨_, count_neutron_ok_of_mem hdec hmem, ?_, ?_, ?_, ?_⟩
    · simp
    · simp
    · intro d hd
      simp [hd]
    · intro d r hdr
      simp only
      rw [if_neg hdr]

/-- Witness for C10: active set {0}, 2 bins, one accepted neutron frame;
after accumulation the invariant holds for the resulting state. -/
theorem C10_count_histogram_invariant_witness :
    (1 : ℕ) ≤ 2 ∧
    ∃ s', Linear3HePSD.accumulate (Linear3HePSD.init [0] 2)
        [[95, 0, 0, 0, 0, 1, 0, 4]] = Except.ok s' ∧
      ∀ d ∈ s'.psd_nums, s'.counts d =
        ∑ r in Finset.range s'.bins, s'.histograms d r := by
  have hdec : translate_neutron_data [95, 0, 0, 0, 0, 1, 0, 4] 14 =
      some (0, some (1 / 2)) := by
    norm_num [translate_neutron_data, psd_14, pl_14, pr_14, position_of]
  have hcn := count_neutron_ok_of_mem (s := Linear3HePSD.init [0] 2) hdec
    (by decide)
  obtain ⟨final, hcnR⟩ : ∃ x, Linear3HePSD.count_neutron
      (Linear3HePSD.init [0] 2) [95, 0, 0, 0, 0, 1, 0, 4] = Except.ok x :=
    ⟨_, hcn⟩
  have hpf : Linear3HePSD.process_frame (Linear3HePSD.init [0] 2)
      [95, 0, 0, 0, 0, 1, 0, 4] = Except.ok final := by
    rw [Linear3HePSD.process_frame,
      if_pos (show ([95, 0, 0, 0, 0, 1, 0, 4] : List ℕ).getD 0 0 = 0x5F
        from rfl)]
    exact hcnR
  have hacc : Linear3HePSD.accumulate (Linear3HePSD.init [0] 2)
      [[95, 0, 0, 0, 0, 1, 0, 4]] = Except.ok final := by
    simp only [Linear3HePSD.accumulate, hpf]
    rfl
  have hmain := C10_count_histogram_invariant [0] 2 [[95, 0, 0, 0, 0, 1, 0, 4]]
    (by norm_num)
  exact ⟨by norm_num, final, hacc, hmain.2.1 final hacc⟩
